import Mathlib

/-!
Verification of the regression-detection engine in
`.github/scripts/analyze_benchmark.py` (class `BenchmarkAnalyzer`).

The Python floats are embedded as exact rationals (`ℚ`); timestamps
(`datetime`) are embedded as integer seconds on the naive timeline, so
`timedelta(days = n)` is `n * 86400` and `strptime(name, "%Y-%m-%d")`
yields a multiple of 86400 (midnight).  The only use the source makes of
the sample standard deviation `stddev = sqrt(variance)` is in the
comparisons `stddev == 0` and `|current - baseline| / stddev > 1.96`;
both are embedded through the equivalent conditions on the square
`stddevSq = variance` (`stddev == 0 ↔ stddevSq == 0`, and for a
nonnegative `z`, `z > 1.96 ↔ z² > 1.96²`), which keeps every definition
computable.
-/

/-- The four canonical operations, from the list
`['create', 'read', 'update', 'delete']` iterated by
`detect_regressions` (and produced by `_parse_benchmark_data` from the
plural keys `creates/reads/updates/deletes`). -/
inductive Op where
  | create
  | read
  | update
  | delete
deriving DecidableEq, Repr

/-- One operation's metric sub-dictionary as produced by
`_parse_benchmark_data`: the seven keys are always present, each numeric
field defaulting to 0 via `op_data.get(key, 0)`. -/
structure OpMetrics where
  throughput : ℚ
  total_time_ms : ℚ
  avg_time_ns : ℚ
  p50_ns : ℚ
  p95_ns : ℚ
  p99_ns : ℚ
  samples : ℕ
deriving DecidableEq, Repr

/-- The per-configuration metrics dictionary built by
`_parse_benchmark_data`: each of the four operations maps either to a
populated sub-dictionary (`some`) or to the initial empty dict `{}`
(`none`, when the corresponding plural key was absent from the JSON).
The opaque `metadata` and `scans` passthrough entries play no role in
classification and are omitted. -/
structure Metrics where
  create : Option OpMetrics
  read : Option OpMetrics
  update : Option OpMetrics
  delete : Option OpMetrics
deriving DecidableEq, Repr

/-- Dictionary lookup `metrics[operation]`, with `none` standing for the
empty dict (the source's `operation not in metrics or not
metrics[operation]` test). -/
def Metrics.get (ms : Metrics) : Op → Option OpMetrics
  | Op.create => ms.create
  | Op.read => ms.read
  | Op.update => ms.update
  | Op.delete => ms.delete

/-- One element of the `historical` list built by
`load_historical_results`: the dict
`{'date': dir_date, 'config': config_name, 'metrics': ...}`. -/
structure HistRecord where
  date : Int
  config : String
  metrics : Metrics
deriving DecidableEq, Repr

/-- `statistics.median`: sort the data; an odd count takes the middle
element, an even count averages the two middle elements.  (The source
never calls it on an empty list; the `getD` default 0 is unreachable.) -/
def medianQ (l : List ℚ) : ℚ :=
  let s := List.insertionSort (· ≤ ·) l
  if l.length % 2 = 1 then s.getD (l.length / 2) 0
  else (s.getD (l.length / 2 - 1) 0 + s.getD (l.length / 2) 0) / 2

/-- The arithmetic mean used by `statistics.stdev`. -/
def meanQ (l : List ℚ) : ℚ := l.sum / l.length

/-- The square of `statistics.stdev`: the sample variance
`Σ (x - mean)² / (n - 1)`.  The source only ever compares the standard
deviation with 0 and with a z-score bound, so carrying the square is a
faithful embedding (see the file docstring). -/
def varianceQ (l : List ℚ) : ℚ :=
  ((l.map (fun x => (x - meanQ l) ^ 2)).sum) / ((l.length : ℚ) - 1)

/-- The pair returned by `calculate_baseline`: `(median, stddev)`, with
the second component represented by its square. -/
structure Baseline where
  median : ℚ
  stddevSq : ℚ
deriving DecidableEq, Repr

/-- The `values` list collected by `calculate_baseline`: for every
historical record whose `config` matches, take `op_data =
result['metrics'].get(operation, {})` and append `op_data[metric]` when
the metric key is present.  A populated sub-dictionary always carries
every metric key (see `OpMetrics`), so presence of the key coincides
with the sub-dictionary being populated; note there is no filter on the
record's sample count. -/
def metricValues (hist : List HistRecord) (config : String) (op : Op)
    (metric : OpMetrics → ℚ) : List ℚ :=
  hist.filterMap (fun r =>
    if r.config = config then (r.metrics.get op).map metric else none)

/-- `BenchmarkAnalyzer.calculate_baseline`: `None` when no values were
collected; otherwise the median together with `statistics.stdev` when
there is more than one value and the literal 0 otherwise. -/
def calculate_baseline (hist : List HistRecord) (config : String) (op : Op)
    (metric : OpMetrics → ℚ) : Option Baseline :=
  let values := metricValues hist config op metric
  if values = [] then none
  else some ⟨medianQ values, if 1 < values.length then varianceQ values else 0⟩

/-- `change_pct = ((current_throughput - baseline_throughput) /
baseline_throughput) * 100`. -/
def change_pct (current baseline : ℚ) : ℚ := (current - baseline) / baseline * 100

/-- `BenchmarkAnalyzer._test_significance`: with zero standard deviation,
significant iff the values differ (`abs(current - baseline) > 0`);
otherwise the z-test `abs(current - baseline) / stddev > 1.96`, embedded
squared: `(current - baseline)² / stddevSq > 1.96²` with `1.96 = 49/25`. -/
def test_significance (current baseline stddevSq : ℚ) : Bool :=
  if stddevSq = 0 then decide (0 < |current - baseline|)
  else decide ((49 / 25) ^ 2 < (current - baseline) ^ 2 / stddevSq)

/-- `regression_threshold: float = 0.15`, the default of
`BenchmarkAnalyzer.__init__` and of the `--regression-threshold`
argument. -/
def default_regression_threshold : ℚ := 0.15

/-- An entry of `regressions['detected']`. -/
structure RegEntry where
  config : String
  operation : Op
  current_throughput : ℚ
  baseline_throughput : ℚ
  change_pct : ℚ
  significant : Bool
deriving DecidableEq, Repr

/-- An entry of `regressions['improvements']` (note: no significance
field). -/
structure ImpEntry where
  config : String
  operation : Op
  current_throughput : ℚ
  baseline_throughput : ℚ
  change_pct : ℚ
deriving DecidableEq, Repr

/-- An entry of `regressions['stable']`: either the
`'status': 'no_baseline'` dict (which carries no baseline, change or
significance keys) or the plain stable dict. -/
inductive StableEntry where
  | noBaseline (config : String) (operation : Op) (current_throughput : ℚ)
  | withBaseline (config : String) (operation : Op) (current_throughput : ℚ)
      (baseline_throughput : ℚ) (change_pct : ℚ)
deriving DecidableEq, Repr

/-- What one `(config, operation)` slot of the `detect_regressions` loop
body contributes: nothing (`skip`, the source's `continue` paths) or one
entry appended to one of the three output lists. -/
inductive ClsResult where
  | skip
  | det (e : RegEntry)
  | imp (e : ImpEntry)
  | stab (e : StableEntry)
deriving DecidableEq, Repr

/-- The body of the inner loop of `BenchmarkAnalyzer.detect_regressions`
for one `(config, operation)` pair: skip when the operation dict is
missing/empty, when no samples were collected, or when the current
throughput is 0; emit a `no_baseline` stable entry when
`calculate_baseline` returns `None`; skip when the baseline median is 0;
otherwise classify by comparing `change_pct` against
`±regression_threshold * 100`. -/
def classifyOne (hist : List HistRecord) (threshold : ℚ) (config : String)
    (op : Op) (opMetrics : Option OpMetrics) : ClsResult :=
  match opMetrics with
  | none => ClsResult.skip
  | some m =>
    if m.samples = 0 then ClsResult.skip
    else if m.throughput = 0 then ClsResult.skip
    else
      match calculate_baseline hist config op OpMetrics.throughput with
      | none => ClsResult.stab (StableEntry.noBaseline config op m.throughput)
      | some b =>
        if b.median = 0 then ClsResult.skip
        else if change_pct m.throughput b.median < -(threshold * 100) then
          ClsResult.det ⟨config, op, m.throughput, b.median,
            change_pct m.throughput b.median,
            test_significance m.throughput b.median b.stddevSq⟩
        else if change_pct m.throughput b.median > threshold * 100 then
          ClsResult.imp ⟨config, op, m.throughput, b.median,
            change_pct m.throughput b.median⟩
        else ClsResult.stab (StableEntry.withBaseline config op m.throughput
          b.median (change_pct m.throughput b.median))

/-- The three output lists of `detect_regressions`. -/
structure Regressions where
  detected : List RegEntry
  improvements : List ImpEntry
  stable : List StableEntry
deriving DecidableEq, Repr

/-- Append one loop-body contribution to the output dict. -/
def addResult (r : Regressions) : ClsResult → Regressions
  | ClsResult.skip => r
  | ClsResult.det e => { r with detected := r.detected ++ [e] }
  | ClsResult.imp e => { r with improvements := r.improvements ++ [e] }
  | ClsResult.stab e => { r with stable := r.stable ++ [e] }

/-- The operation list `['create', 'read', 'update', 'delete']`. -/
def Op.all : List Op := [Op.create, Op.read, Op.update, Op.delete]

/-- `BenchmarkAnalyzer.detect_regressions`: iterate the current results
(`self.current_results.items()`, an insertion-ordered dict embedded as
an association list) and the four operations, accumulating into the
three lists. -/
def detect_regressions (hist : List HistRecord) (threshold : ℚ)
    (current : List (String × Metrics)) : Regressions :=
  current.foldl (fun acc cm =>
    Op.all.foldl (fun acc2 op =>
      addResult acc2 (classifyOne hist threshold cm.1 op (cm.2.get op))) acc)
    ⟨[], [], []⟩

/-- The spec-side status of one loop-body contribution (`none` when the
slot produced no entry at all). -/
inductive Status where
  | regression
  | improvement
  | stable
  | no_baseline
deriving DecidableEq, Repr

/-- Which status, if any, a slot's contribution carries. -/
def resultStatus : ClsResult → Option Status
  | ClsResult.skip => none
  | ClsResult.det _ => some Status.regression
  | ClsResult.imp _ => some Status.improvement
  | ClsResult.stab (StableEntry.noBaseline ..) => some Status.no_baseline
  | ClsResult.stab (StableEntry.withBaseline ..) => some Status.stable

/-- The `change_pct` value recorded in a slot's contribution, when one is
recorded (`no_baseline` entries and skipped slots record none). -/
def resultChangePct : ClsResult → Option ℚ
  | ClsResult.skip => none
  | ClsResult.det e => some e.change_pct
  | ClsResult.imp e => some e.change_pct
  | ClsResult.stab (StableEntry.noBaseline ..) => none
  | ClsResult.stab (StableEntry.withBaseline _ _ _ _ cp) => some cp

/-- What one file inside a day directory contributes to
`load_historical_results`: a successfully validated and parsed document
(already tagged with its configuration name, extracted from the file
name), a file rejected by the path guard (`safe_file is None`, handled
by `continue`), or a file whose open/`json.load` raises (handled only by
the per-day `except`). -/
inductive FileEntry where
  | valid (config : String) (metrics : Metrics)
  | rejectedPath
  | badJson
deriving DecidableEq, Repr

/-- One entry of the sorted, descending directory listing walked by
`load_historical_results`: whether the path guard accepts it, what
`strptime(name, "%Y-%m-%d")` yields (`none` when it raises `ValueError`,
otherwise the midnight timestamp), and its result files in glob order.
Non-directory entries are filtered out before this point
(`if not date_dir.is_dir(): continue`). -/
structure DayDir where
  validated : Bool
  parsedDate : Option Int
  files : List FileEntry
deriving DecidableEq, Repr

/-- The inner file loop of `load_historical_results` over one day
directory dated `dt`: rejected paths are skipped by `continue`; a
raising open/parse propagates to the per-day `except`, abandoning the
remaining files of the directory while keeping the records already
appended to `historical`. -/
def processDay (dt : Int) : List FileEntry → List HistRecord
  | [] => []
  | FileEntry.rejectedPath :: rest => processDay dt rest
  | FileEntry.valid cfg ms :: rest => ⟨dt, cfg, ms⟩ :: processDay dt rest
  | FileEntry.badJson :: _ => []

/-- The directory loop of `load_historical_results`, given the already
computed `cutoff_date`: a day rejected by the path guard is skipped; a
day whose name fails `strptime` raises into the per-day `except` and is
skipped; a parsed date `< cutoff_date` breaks the entire walk; otherwise
the day's files are processed and the walk continues. -/
def loadHistorical (cutoff : Int) : List DayDir → List HistRecord
  | [] => []
  | d :: rest =>
    if d.validated = false then loadHistorical cutoff rest
    else
      match d.parsedDate with
      | none => loadHistorical cutoff rest
      | some dt =>
        if dt < cutoff then []
        else processDay dt d.files ++ loadHistorical cutoff rest

/-- Seconds per day: `timedelta(days=1)`. -/
def secondsPerDay : Int := 86400

/-- `cutoff_date = datetime.now() - timedelta(days=self.historical_days)`,
with `now` the current naive timestamp in seconds. -/
def cutoffOf (now historicalDays : Int) : Int := now - historicalDays * secondsPerDay

/-- The timestamp `strptime` assigns to a directory named with day number
`day`: midnight of that day. -/
def midnightOf (day : Int) : Int := day * secondsPerDay

/-- `BenchmarkAnalyzer.load_historical_results` at time `now`, over the
descending-sorted directory listing `dirs`. -/
def load_historical_results (now historicalDays : Int) (dirs : List DayDir) :
    List HistRecord :=
  loadHistorical (cutoffOf now historicalDays) dirs

/-- An abstract filesystem for the path guard: `resolve` is
`Path.resolve(strict=True)`, taking a path (as its component list) to
its canonical absolute form — following every symlink — or to `none`
when the path does not exist, a symlink dangles, or resolution fails
with `OSError`/`ValueError` (the exceptions the source catches). -/
structure FileSystem where
  resolve : List String → Option (List String)

/-- `BenchmarkAnalyzer._validate_and_resolve_input_path`: resolve the
candidate, then the base; reject (`None`) when either resolution fails
or when the resolved candidate is not `is_relative_to` the resolved base
(i.e. the resolved base's components are not a prefix of the resolved
candidate's); otherwise return the resolved candidate. -/
def validate_and_resolve_input_path (fs : FileSystem)
    (file_path base_dir : List String) : Option (List String) :=
  match fs.resolve file_path with
  | none => none
  | some resolved_file =>
    match fs.resolve base_dir with
    | none => none
    | some resolved_base =>
      if resolved_base.isPrefixOf resolved_file then some resolved_file else none

/-- The characters of the pattern `'result-'` stripped by
`_extract_config_name`. -/
def RESULT_DASH : List Char := ['r', 'e', 's', 'u', 'l', 't', '-']

/-- Fuel-indexed worker for Python's `str.replace('result-', '')`: scan
left to right, deleting each non-overlapping occurrence of the pattern
and resuming the scan after the deleted text.  The fuel (initially the
string length, which bounds the number of steps) only makes the
recursion structural; it is never exhausted. -/
def removeResultDashAux : Nat → List Char → List Char
  | 0, _ => []
  | _ + 1, [] => []
  | fuel + 1, c :: rest =>
    if RESULT_DASH.isPrefixOf (c :: rest) then removeResultDashAux fuel (rest.drop 6)
    else c :: removeResultDashAux fuel rest

/-- `str.replace('result-', '')` on a list of characters. -/
def removeResultDash (s : List Char) : List Char := removeResultDashAux s.length s

/-- `PurePath.stem`: the final component without its last suffix, where
the suffix starts at the last `'.'` provided that dot is neither the
first nor the last character (`0 < i < len(name) - 1`). -/
def pyStem (name : List Char) : List Char :=
  match name.reverse.findIdx? (· == '.') with
  | none => name
  | some j =>
    let i := name.length - 1 - j
    if 0 < i ∧ i < name.length - 1 then name.take i else name

/-- `BenchmarkAnalyzer._extract_config_name`:
`json_path.stem.replace('result-', '')`. -/
def extract_config_name (filename : List Char) : List Char :=
  removeResultDash (pyStem filename)

/-- An operation sub-dictionary with the given throughput and sample
count (the latency fields, irrelevant to classification, set to 0). -/
def opm (thr : ℚ) (n : ℕ) : OpMetrics := ⟨thr, 0, 0, 0, 0, 0, n⟩

/-- A metrics dictionary populated only for `create`. -/
def onlyCreate (m : OpMetrics) : Metrics := ⟨some m, none, none, none⟩

/-- A historical record (dated 0) for configuration `cfg` whose `create`
operation ran with the given throughput and sample count. -/
def histRec (cfg : String) (thr : ℚ) (n : ℕ) : HistRecord :=
  ⟨0, cfg, onlyCreate (opm thr n)⟩

/-- Spec section 8, scenario A: historical `create` throughputs
`[100, 102, 98, 101]` for configuration `memory`. -/
def scenarioHist : List HistRecord :=
  [histRec "memory" 100 10, histRec "memory" 102 10,
   histRec "memory" 98 10, histRec "memory" 101 10]

/-- The same historical records in another order. -/
def scenarioHistPermuted : List HistRecord :=
  [histRec "memory" 101 10, histRec "memory" 98 10,
   histRec "memory" 102 10, histRec "memory" 100 10]

/-- Scenario A's current `create` measurement: throughput 80. -/
def scenarioCurrent : OpMetrics := opm 80 10

/-- A historical record whose `create` operation reports throughput 5
with a sample count of 0. -/
def zeroSampleRec : HistRecord := histRec "memory" 5 0

/-- A history whose only `create` throughput is 0, so the computed
baseline median is 0. -/
def zeroMedianHist : List HistRecord := [histRec "memory" 0 10]

/-- A current-results metrics dict with a well-sampled nonzero `create`
throughput. -/
def liveCurrent : Metrics := onlyCreate (opm 100 10)

/-- A history with a single `create` throughput of 7. -/
def singletonHist : List HistRecord := [histRec "memory" 7 3]

/-- An abstract filesystem with a root directory `root` containing a
regular file `data`, and a symlink `outside/link` — located outside the
root — whose target is `root/data`, inside the root. -/
def symFS : FileSystem :=
  ⟨fun p =>
    if p = ["root"] then some ["root"]
    else if p = ["root", "data"] then some ["root", "data"]
    else if p = ["outside", "link"] then some ["root", "data"]
    else none⟩

/-- A day directory's files: a parseable file, then a file whose
`json.load` raises, then another parseable file. -/
def mixedDayFiles : List FileEntry :=
  [FileEntry.valid "memory" liveCurrent, FileEntry.badJson,
   FileEntry.valid "rocksdb" liveCurrent]

theorem varianceQ_nonneg (l : List ℚ) : 0 ≤ varianceQ l := by
  rcases l with _ | ⟨a, l⟩
  · simp [varianceQ]
  · apply div_nonneg
    · refine List.sum_nonneg ?_
      intro x hx
      simp only [List.mem_map] at hx
      obtain ⟨y, -, rfl⟩ := hx
      positivity
    · simp only [List.length_cons]
      push_cast
      linarith

theorem baseline_stddevSq_nonneg {hist : List HistRecord} {config : String}
    {op : Op} {metric : OpMetrics → ℚ} {b : Baseline}
    (h : calculate_baseline hist config op metric = some b) : 0 ≤ b.stddevSq := by
  simp only [calculate_baseline] at h
  split at h
  · exact absurd h (by simp)
  · obtain rfl : Baseline.mk _ _ = b := Option.some.inj h
    by_cases hl : 1 < (metricValues hist config op metric).length
    · simpa [hl] using varianceQ_nonneg (metricValues hist config op metric)
    · simp [hl]

theorem baseline_median_eq {hist : List HistRecord} {config : String}
    {op : Op} {metric : OpMetrics → ℚ} {b : Baseline}
    (h : calculate_baseline hist config op metric = some b) :
    b.median = medianQ (metricValues hist config op metric) := by
  simp only [calculate_baseline] at h
  split at h
  · exact absurd h (by simp)
  · obtain rfl : Baseline.mk _ _ = b := Option.some.inj h
    rfl

theorem insertionSort_eq_of_perm {l l' : List ℚ} (h : l.Perm l') :
    List.insertionSort (· ≤ ·) l = List.insertionSort (· ≤ ·) l' :=
  List.eq_of_perm_of_sorted
    ((List.perm_insertionSort _ l).trans (h.trans (List.perm_insertionSort _ l').symm))
    (List.sorted_insertionSort _ l) (List.sorted_insertionSort _ l')

theorem medianQ_perm {l l' : List ℚ} (h : l.Perm l') : medianQ l = medianQ l' := by
  unfold medianQ
  rw [insertionSort_eq_of_perm h, h.length_eq]

theorem meanQ_perm {l l' : List ℚ} (h : l.Perm l') : meanQ l = meanQ l' := by
  unfold meanQ
  rw [h.sum_eq, h.length_eq]

theorem varianceQ_perm {l l' : List ℚ} (h : l.Perm l') : varianceQ l = varianceQ l' := by
  unfold varianceQ
  rw [meanQ_perm h, (h.map _).sum_eq, h.length_eq]

theorem getD_mem_of_lt {l : List ℚ} {i : ℕ} (h : i < l.length) (d : ℚ) :
    l.getD i d ∈ l := by
  rw [List.getD_eq_getElem?_getD, List.getElem?_eq_getElem h, Option.getD_some]
  exact List.getElem_mem h

theorem medianQ_between {l : List ℚ} {mn mx : ℚ} (hne : l ≠ [])
    (hmn : ∀ x ∈ l, mn ≤ x) (hmx : ∀ x ∈ l, x ≤ mx) :
    mn ≤ medianQ l ∧ medianQ l ≤ mx := by
  have hperm := List.perm_insertionSort (· ≤ ·) l
  have hlen : (List.insertionSort (· ≤ ·) l).length = l.length := hperm.length_eq
  have hb : ∀ x ∈ List.insertionSort (· ≤ ·) l, mn ≤ x ∧ x ≤ mx := fun x hx =>
    ⟨hmn x (hperm.mem_iff.mp hx), hmx x (hperm.mem_iff.mp hx)⟩
  have hlpos : 0 < l.length := List.length_pos.mpr hne
  unfold medianQ
  by_cases hpar : l.length % 2 = 1
  · rw [if_pos hpar]
    have hi : l.length / 2 < (List.insertionSort (· ≤ ·) l).length := by
      rw [hlen]; exact Nat.div_lt_self hlpos (by norm_num)
    exact hb _ (getD_mem_of_lt hi 0)
  · rw [if_neg hpar]
    have h2 : 2 ≤ l.length := by omega
    have hi : l.length / 2 < (List.insertionSort (· ≤ ·) l).length := by
      rw [hlen]; exact Nat.div_lt_self hlpos (by norm_num)
    have hi' : l.length / 2 - 1 < (List.insertionSort (· ≤ ·) l).length := by
      omega
    have b1 := hb _ (getD_mem_of_lt hi' 0)
    have b2 := hb _ (getD_mem_of_lt hi 0)
    constructor <;> [linarith [b1.1, b2.1]; linarith [b1.2, b2.2]]

theorem medianQ_singleton (v : ℚ) : medianQ [v] = v := by
  simp [medianQ, List.insertionSort, List.orderedInsert]

theorem classifyOne_eq {hist : List HistRecord} {t : ℚ} {config : String} {op : Op}
    {m : OpMetrics} {b : Baseline} (hs : m.samples ≠ 0) (htp : m.throughput ≠ 0)
    (hb : calculate_baseline hist config op OpMetrics.throughput = some b)
    (hm : b.median ≠ 0) :
    classifyOne hist t config op (some m) =
      (if change_pct m.throughput b.median < -(t * 100) then
        ClsResult.det ⟨config, op, m.throughput, b.median,
          change_pct m.throughput b.median,
          test_significance m.throughput b.median b.stddevSq⟩
      else if change_pct m.throughput b.median > t * 100 then
        ClsResult.imp ⟨config, op, m.throughput, b.median,
          change_pct m.throughput b.median⟩
      else ClsResult.stab (StableEntry.withBaseline config op m.throughput
        b.median (change_pct m.throughput b.median))) := by
  simp only [classifyOne, hb]
  rw [if_neg hs, if_neg htp, if_neg hm]

/-- C1: for every current value compared against a present baseline with
nonzero median (a slot with samples, nonzero throughput, and a baseline
whose median is nonzero), the classifier computes
`change_pct = (current - median) / median * 100` and records it, assigns
status `regression` exactly when `change_pct < -threshold*100`,
`improvement` exactly when `change_pct > threshold*100`, and `stable`
otherwise — so a `change_pct` exactly on either boundary is `stable` —
and the threshold defaults to `0.15`.  (The nonnegativity hypothesis on
the threshold reflects its meaning as a fraction; the source's
`elif` chain makes the three cases exhaustive and mutually exclusive
only for nonnegative thresholds.) -/
theorem c1_classifier_thresholds (hist : List HistRecord) (t : ℚ) (config : String)
    (op : Op) (m : OpMetrics) (b : Baseline)
    (hs : m.samples ≠ 0) (htp : m.throughput ≠ 0) (ht0 : 0 ≤ t)
    (hb : calculate_baseline hist config op OpMetrics.throughput = some b)
    (hm : b.median ≠ 0) :
    (resultStatus (classifyOne hist t config op (some m)) = some Status.regression ↔
      change_pct m.throughput b.median < -(t * 100)) ∧
    (resultStatus (classifyOne hist t config op (some m)) = some Status.improvement ↔
      change_pct m.throughput b.median > t * 100) ∧
    (resultStatus (classifyOne hist t config op (some m)) = some Status.stable ↔
      (-(t * 100) ≤ change_pct m.throughput b.median ∧
        change_pct m.throughput b.median ≤ t * 100)) ∧
    resultChangePct (classifyOne hist t config op (some m)) =
      some (change_pct m.throughput b.median) ∧
    default_regression_threshold = 15 / 100 := by
  have ht100 : (0 : ℚ) ≤ t * 100 := by positivity
  rw [classifyOne_eq hs htp hb hm]
  by_cases h1 : change_pct m.throughput b.median < -(t * 100)
  · rw [if_pos h1]
    refine ⟨by simp [resultStatus, h1], by simp [resultStatus]; linarith,
      by simp [resultStatus]; intro h; linarith, by simp [resultChangePct], by norm_num [default_regression_threshold]⟩
  · rw [if_neg h1]
    by_cases h2 : change_pct m.throughput b.median > t * 100
    · rw [if_pos h2]
      refine ⟨by simp [resultStatus, h1], by simp [resultStatus, h2],
        by simp [resultStatus]; intro h; linarith, by simp [resultChangePct], by norm_num [default_regression_threshold]⟩
    · rw [if_neg h2]
      refine ⟨by simp [resultStatus, h1], by simp [resultStatus, h2],
        by simp [resultStatus]; constructor <;> [linarith; linarith],
        by simp [resultChangePct], by norm_num [default_regression_threshold]⟩

theorem scenario_metricValues :
    metricValues scenarioHist "memory" Op.create OpMetrics.throughput =
      [100, 102, 98, 101] := by decide

theorem scenario_baseline :
    calculate_baseline scenarioHist "memory" Op.create OpMetrics.throughput =
      some ⟨201 / 2, 35 / 12⟩ := by
  simp only [calculate_baseline, scenario_metricValues]
  rw [if_neg (show ¬ ([100, 102, 98, 101] : List ℚ) = [] by decide)]
  norm_num [medianQ, varianceQ, meanQ, List.insertionSort, List.orderedInsert]

theorem c1_classifier_thresholds_witness :
    resultStatus (classifyOne scenarioHist (15 / 100) "memory" Op.create
      (some scenarioCurrent)) = some Status.regression :=
  ((c1_classifier_thresholds scenarioHist (15 / 100) "memory" Op.create scenarioCurrent
    ⟨201 / 2, 35 / 12⟩ (by decide) (by decide) (by norm_num)
    scenario_baseline (by norm_num)).1).mpr
    (by norm_num [change_pct, scenarioCurrent, opm])

/-- C2 counterexample: a current record with `sample_count = 10 > 0` and
nonzero throughput whose `(configuration, operation)` has a present
baseline with median 0 produces **no** classification entry at all (the
source's `if baseline_throughput == 0: continue`), not an entry with
status `no_baseline` as the claim states. -/
theorem c2_zero_median_counterexample :
    calculate_baseline zeroMedianHist "memory" Op.create OpMetrics.throughput =
      some ⟨0, 0⟩ ∧
    (opm 100 10).samples ≠ 0 ∧ (opm 100 10).throughput ≠ 0 ∧
    detect_regressions zeroMedianHist (15 / 100) [("memory", liveCurrent)] =
      ⟨[], [], []⟩ := by decide

/-- C2 amended: for a current record with `sample_count > 0` and nonzero
throughput, an absent baseline yields exactly one entry, with status
`no_baseline`; but a present baseline whose median is 0 yields no entry
at all (the slot is skipped before the percentage division, which is
also why no divide-by-zero can occur); a present baseline with nonzero
median always yields an entry. -/
theorem c2_entry_production_amended (hist : List HistRecord) (t : ℚ)
    (config : String) (op : Op) (m : OpMetrics)
    (hs : m.samples ≠ 0) (htp : m.throughput ≠ 0) :
    (calculate_baseline hist config op OpMetrics.throughput = none →
      classifyOne hist t config op (some m) =
        ClsResult.stab (StableEntry.noBaseline config op m.throughput)) ∧
    (∀ b, calculate_baseline hist config op OpMetrics.throughput = some b →
      b.median = 0 → classifyOne hist t config op (some m) = ClsResult.skip) ∧
    (∀ b, calculate_baseline hist config op OpMetrics.throughput = some b →
      b.median ≠ 0 → classifyOne hist t config op (some m) ≠ ClsResult.skip) := by
  refine ⟨fun hnone => ?_, fun b hb hm0 => ?_, fun b hb hm => ?_⟩
  · simp only [classifyOne, hnone]
    rw [if_neg hs, if_neg htp]
  · simp only [classifyOne, hb]
    rw [if_neg hs, if_neg htp, if_pos hm0]
  · rw [classifyOne_eq hs htp hb hm]
    by_cases h1 : change_pct m.throughput b.median < -(t * 100)
    · simp [h1]
    · by_cases h2 : change_pct m.throughput b.median > t * 100 <;> simp [h1, h2]

theorem c2_entry_production_witness :
    classifyOne [] (15 / 100) "rocksdb" Op.delete (some (opm 100 10)) =
      ClsResult.stab (StableEntry.noBaseline "rocksdb" Op.delete 100) :=
  (c2_entry_production_amended [] (15 / 100) "rocksdb" Op.delete (opm 100 10)
    (by decide) (by decide)).1 (by decide)

/-- C3 counterexample: a historical record whose `create` operation has
`samples = 0` (and throughput 5) is **not** ignored by
`calculate_baseline` — its value enters the collected metric values, and
with it as the sole history the baseline is present (median 5) instead
of absent, contradicting the claim that zero-sample records are excluded
from baseline computation. -/
theorem c3_zero_samples_counterexample :
    zeroSampleRec.metrics.create = some (opm 5 0) ∧ (opm 5 0).samples = 0 ∧
    calculate_baseline [zeroSampleRec] "memory" Op.create OpMetrics.throughput =
      some ⟨5, 0⟩ := by decide

/-- C3 amended: the classifier produces no status for a current record
with `sample_count == 0` (the slot is skipped), but the baseline
calculator does **not** filter on sample count: any matching historical
record with a populated operation dictionary contributes its metric
value regardless of its sample count (in particular when that count is
0, as the counterexample instantiates). -/
theorem c3_exclusion_amended (hist : List HistRecord) (t : ℚ) (config : String)
    (op : Op) (m mr : OpMetrics) (r : HistRecord) (metric : OpMetrics → ℚ)
    (hs : m.samples = 0) (hrc : r.config = config)
    (hrm : r.metrics.get op = some mr) :
    classifyOne hist t config op (some m) = ClsResult.skip ∧
    metricValues (r :: hist) config op metric =
      metric mr :: metricValues hist config op metric := by
  constructor
  · simp only [classifyOne]
    rw [if_pos hs]
  · unfold metricValues
    rw [List.filterMap_cons]
    simp [hrc, hrm]

theorem c3_exclusion_witness :
    classifyOne [] (15 / 100) "memory" Op.create (some (opm 5 0)) = ClsResult.skip ∧
    metricValues [zeroSampleRec] "memory" Op.create OpMetrics.throughput =
      OpMetrics.throughput (opm 5 0) ::
        metricValues [] "memory" Op.create OpMetrics.throughput :=
  c3_exclusion_amended [] (15 / 100) "memory" Op.create (opm 5 0) (opm 5 0)
    zeroSampleRec OpMetrics.throughput rfl rfl rfl

/-- C4: the significance flag is computed only for `regression` entries:
when `change_pct` crosses the regression threshold the emitted entry
carries `test_significance`, and otherwise no `detected` entry exists at
all (so `improvement`/`stable` entries structurally carry no
significance field — see `ImpEntry` and `StableEntry`); the flag itself
is: with zero standard deviation, significant iff the current value
differs from the median; otherwise significant iff the z-score
`|current - median| / stddev` exceeds 1.96, stated squared as
`(current - median)² > 1.96² * stddevSq`; and the status is determined
by `change_pct` alone, independent of the flag. -/
theorem c4_significance (hist : List HistRecord) (t : ℚ) (config : String)
    (op : Op) (m : OpMetrics) (b : Baseline)
    (hs : m.samples ≠ 0) (htp : m.throughput ≠ 0)
    (hb : calculate_baseline hist config op OpMetrics.throughput = some b)
    (hm : b.median ≠ 0) :
    (change_pct m.throughput b.median < -(t * 100) →
      classifyOne hist t config op (some m) =
        ClsResult.det ⟨config, op, m.throughput, b.median,
          change_pct m.throughput b.median,
          test_significance m.throughput b.median b.stddevSq⟩) ∧
    (¬ change_pct m.throughput b.median < -(t * 100) →
      ∀ e, classifyOne hist t config op (some m) ≠ ClsResult.det e) ∧
    (b.stddevSq = 0 →
      (test_significance m.throughput b.median b.stddevSq = true ↔
        m.throughput ≠ b.median)) ∧
    (b.stddevSq ≠ 0 →
      (test_significance m.throughput b.median b.stddevSq = true ↔
        (m.throughput - b.median) ^ 2 > (49 / 25) ^ 2 * b.stddevSq)) := by
  refine ⟨fun h1 => ?_, fun h1 e => ?_, fun hv => ?_, fun hv => ?_⟩
  · rw [classifyOne_eq hs htp hb hm, if_pos h1]
  · rw [classifyOne_eq hs htp hb hm, if_neg h1]
    by_cases h2 : change_pct m.throughput b.median > t * 100 <;> simp [h2]
  · unfold test_significance
    rw [if_pos hv]
    simp [abs_pos, sub_ne_zero]
  · have hv' : 0 < b.stddevSq :=
      lt_of_le_of_ne (baseline_stddevSq_nonneg hb) (Ne.symm hv)
    unfold test_significance
    rw [if_neg hv]
    simp only [decide_eq_true_eq, gt_iff_lt]
    rw [lt_div_iff₀ hv']

theorem c4_significance_witness :
    classifyOne scenarioHist (15 / 100) "memory" Op.create (some scenarioCurrent) =
      ClsResult.det ⟨"memory", Op.create, 80, 201 / 2, change_pct 80 (201 / 2),
        test_significance 80 (201 / 2) (35 / 12)⟩ :=
  (c4_significance scenarioHist (15 / 100) "memory" Op.create scenarioCurrent
    ⟨201 / 2, 35 / 12⟩ (by decide) (by decide) scenario_baseline (by norm_num)).1
    (by norm_num [change_pct, scenarioCurrent, opm])

/-- C5 counterexample: in `symFS` the candidate `outside/link` is a
symlink located outside the allowed root `root` (the root's components
are not a prefix of the candidate's), yet it resolves to `root/data`
inside the root and the validator **accepts** it, returning the resolved
target — refuting the claim that a symlink outside the root pointing
inside it is rejected. -/
theorem c5_symlink_counterexample :
    validate_and_resolve_input_path symFS ["outside", "link"] ["root"] =
      some ["root", "data"] ∧
    (["root"].isPrefixOf ["outside", "link"]) = false := by decide

/-- C5 amended: the validator canonicalizes both paths before comparing
and accepts exactly when the canonical candidate equals or descends from
the canonical root; it returns rejected (never raising — the source
catches `OSError`/`ValueError`, embedded as `resolve = none`) when the
candidate or the root cannot be resolved or resolves outside the root.
Consequently a symlink inside the root pointing outside it is rejected,
but a symlink outside the root pointing inside it is **accepted**:
the decision depends only on the resolved target (last conjunct). -/
theorem c5_path_authorization_amended (fs : FileSystem)
    (p base q rp rb : List String) :
    (fs.resolve p = none → validate_and_resolve_input_path fs p base = none) ∧
    (fs.resolve base = none → validate_and_resolve_input_path fs p base = none) ∧
    (fs.resolve p = some rp → fs.resolve base = some rb →
      rb.isPrefixOf rp = false →
      validate_and_resolve_input_path fs p base = none) ∧
    (fs.resolve p = some rp → fs.resolve base = some rb →
      rb.isPrefixOf rp = true →
      validate_and_resolve_input_path fs p base = some rp) ∧
    (fs.resolve q = fs.resolve p →
      validate_and_resolve_input_path fs q base =
        validate_and_resolve_input_path fs p base) := by
  refine ⟨fun h => ?_, fun h => ?_, fun h1 h2 h3 => ?_, fun h1 h2 h3 => ?_,
    fun h => ?_⟩
  · unfold validate_and_resolve_input_path
    rw [h]
  · unfold validate_and_resolve_input_path
    cases hres : fs.resolve p <;> simp [h]
  · unfold validate_and_resolve_input_path
    rw [h1, h2]
    simp [h3]
  · unfold validate_and_resolve_input_path
    rw [h1, h2]
    simp [h3]
  · unfold validate_and_resolve_input_path
    rw [h]

theorem c5_path_authorization_witness :
    validate_and_resolve_input_path symFS ["root", "data"] ["root"] =
      some ["root", "data"] ∧
    validate_and_resolve_input_path symFS ["root", "missing"] ["root"] = none :=
  ⟨(c5_path_authorization_amended symFS ["root", "data"] ["root"] ["root", "data"]
      ["root", "data"] ["root"]).2.2.2.1 (by decide) (by decide) (by decide),
   (c5_path_authorization_amended symFS ["root", "missing"] ["root"] [] [] []).1
      (by decide)⟩

/-- C6 counterexample: within one day directory, a file whose
`json.load` raises prevents the remaining file of the same directory
from being parsed — the second valid file (`rocksdb`) contributes no
record, because the exception is caught by the per-day handler, not per
file. -/
theorem c6_parse_failure_counterexample :
    processDay 0 mixedDayFiles = [⟨0, "memory", liveCurrent⟩] ∧
    HistRecord.mk 0 "rocksdb" liveCurrent ∉ processDay 0 mixedDayFiles := by decide

/-- C6 amended: a file rejected by the path guard is skipped in
isolation (first conjunct), but a file whose open/parse raises aborts
the remaining files of the same day directory — everything after the
first raising file is irrelevant to the output (second conjunct);
records parsed before the failure are kept, and the walk still proceeds
to the remaining day directories, so the loader never fails the whole
run (third conjunct). -/
theorem c6_failure_isolation_amended (dt c : Int) (fs1 fs2 fs2' : List FileEntry)
    (rest : List DayDir) (hc : ¬ dt < c) :
    processDay dt (fs1 ++ FileEntry.rejectedPath :: fs2) =
      processDay dt (fs1 ++ fs2) ∧
    processDay dt (fs1 ++ FileEntry.badJson :: fs2) =
      processDay dt (fs1 ++ FileEntry.badJson :: fs2') ∧
    loadHistorical c
        ({ validated := true, parsedDate := some dt, files := fs1 } :: rest) =
      processDay dt fs1 ++ loadHistorical c rest := by
  refine ⟨?_, ?_, ?_⟩
  · induction fs1 with
    | nil => simp [processDay]
    | cons a fs1 ih => cases a <;> simp [processDay, ih]
  · induction fs1 with
    | nil => simp [processDay]
    | cons a fs1 ih => cases a <;> simp [processDay, ih]
  · simp [loadHistorical, hc]

theorem c6_failure_isolation_witness :
    processDay 0 ([] ++ FileEntry.rejectedPath ::
        [FileEntry.valid "memory" liveCurrent]) =
      processDay 0 ([] ++ [FileEntry.valid "memory" liveCurrent]) :=
  (c6_failure_isolation_amended 0 0 [] [FileEntry.valid "memory" liveCurrent]
    [] [] (by decide)).1

/-- C8 counterexample: at `now = 100 days + 1 hour` past the epoch with a
30-day window, the directory dated exactly `today - 30` (day 70, whose
`strptime` timestamp is midnight of day 70) satisfies
`dir_date < cutoff_date` — because `cutoff_date = now - 30 days` carries
the current time of day — so the walk breaks immediately and the
directory's valid file is **not** loaded, refuting the claim that a
directory dated exactly `today - retention_window_days` is still
loaded. -/
theorem c8_cutoff_boundary_counterexample :
    (100 * 86400 + 3600) / 86400 - 30 = (70 : Int) ∧
    load_historical_results (100 * 86400 + 3600) 30
      [{ validated := true, parsedDate := some (midnightOf 70),
         files := [FileEntry.valid "memory" liveCurrent] }] = [] := by decide

/-- C8 amended: the walk stops exactly when it reaches a validated
directory whose parsed (midnight) date is strictly earlier than the
instant `now - retention_window_days` (second and third conjuncts), and
a directory whose name does not parse as a date is skipped, never
treated as the stop condition (first conjunct); but because the cutoff
carries the current time of day, a directory dated exactly
`today - retention_window_days` is already strictly earlier than the
cutoff whenever the run does not happen exactly at midnight (fourth
conjunct; at exact midnight the two coincide and the directory is
loaded, fifth conjunct). -/
theorem c8_walk_stop_amended (now days dt : Int) (fs : List FileEntry)
    (rest : List DayDir) :
    (loadHistorical (cutoffOf now days)
        ({ validated := true, parsedDate := none, files := fs } :: rest) =
      loadHistorical (cutoffOf now days) rest) ∧
    (dt < cutoffOf now days →
      loadHistorical (cutoffOf now days)
        ({ validated := true, parsedDate := some dt, files := fs } :: rest) = []) ∧
    (¬ dt < cutoffOf now days →
      loadHistorical (cutoffOf now days)
        ({ validated := true, parsedDate := some dt, files := fs } :: rest) =
        processDay dt fs ++ loadHistorical (cutoffOf now days) rest) ∧
    (now % 86400 ≠ 0 → midnightOf (now / 86400 - days) < cutoffOf now days) ∧
    (now % 86400 = 0 → midnightOf (now / 86400 - days) = cutoffOf now days) := by
  refine ⟨by simp [loadHistorical], fun h => by simp [loadHistorical, h],
    fun h => by simp [loadHistorical, h], fun h => ?_, fun h => ?_⟩
  · unfold midnightOf cutoffOf secondsPerDay
    omega
  · unfold midnightOf cutoffOf secondsPerDay
    omega

theorem c8_walk_stop_witness :
    loadHistorical (cutoffOf (100 * 86400 + 3600) 30)
      [{ validated := true, parsedDate := some (midnightOf 70),
         files := [FileEntry.valid "memory" liveCurrent] }] = [] :=
  (c8_walk_stop_amended (100 * 86400 + 3600) 30 (midnightOf 70)
    [FileEntry.valid "memory" liveCurrent] []).2.1 (by decide)

/-- C7: for every (configuration, operation, metric), the baseline
calculator returns absent (`none`) when the filtered set of historical
values is empty, and with exactly one historical value it returns a
baseline whose median equals that value and whose standard deviation is
(the literal) 0 — defined, not failing. -/
theorem c7_baseline_edges (hist : List HistRecord) (config : String) (op : Op)
    (metric : OpMetrics → ℚ) (v : ℚ) :
    (metricValues hist config op metric = [] →
      calculate_baseline hist config op metric = none) ∧
    (metricValues hist config op metric = [v] →
      calculate_baseline hist config op metric = some ⟨v, 0⟩) := by
  constructor
  · intro h
    simp [calculate_baseline, h]
  · intro h
    simp [calculate_baseline, h, medianQ_singleton]

theorem c7_baseline_edges_witness :
    calculate_baseline [] "memory" Op.create OpMetrics.throughput = none ∧
    calculate_baseline singletonHist "memory" Op.create OpMetrics.throughput =
      some ⟨7, 0⟩ :=
  ⟨(c7_baseline_edges [] "memory" Op.create OpMetrics.throughput 0).1 (by decide),
   (c7_baseline_edges singletonHist "memory" Op.create OpMetrics.throughput 7).2
     (by decide)⟩

/-- C9: the baseline for a (configuration, operation, metric) is
invariant under any permutation of the historical record sequence, and
whenever a baseline is produced from at least two values, its (squared)
standard deviation is nonnegative — hence the source's
`stddev = sqrt(stddevSq)` is well defined and nonnegative — and its
median lies between the minimum and the maximum of the collected value
set. -/
theorem c9_baseline_order_invariance (hist hist' : List HistRecord)
    (config : String) (op : Op) (metric : OpMetrics → ℚ) (b : Baseline)
    (mn mx : ℚ) (hp : hist.Perm hist') :
    calculate_baseline hist config op metric =
      calculate_baseline hist' config op metric ∧
    (calculate_baseline hist config op metric = some b →
      2 ≤ (metricValues hist config op metric).length →
      (metricValues hist config op metric).min? = some mn →
      (metricValues hist config op metric).max? = some mx →
      0 ≤ b.stddevSq ∧ mn ≤ b.median ∧ b.median ≤ mx) := by
  have hv : (metricValues hist config op metric).Perm
      (metricValues hist' config op metric) := hp.filterMap _
  constructor
  · simp only [calculate_baseline]
    by_cases he : metricValues hist config op metric = []
    · have he' : metricValues hist' config op metric = [] := by
        have h2 := hv.symm
        rw [he] at h2
        exact h2.eq_nil
      rw [if_pos he, if_pos he']
    · have he' : metricValues hist' config op metric ≠ [] := by
        intro h0
        rw [h0] at hv
        exact he hv.eq_nil
      rw [if_neg he, if_neg he', medianQ_perm hv, varianceQ_perm hv, hv.length_eq]
  · intro hb h2 hmn hmx
    have hnn := baseline_stddevSq_nonneg hb
    have hbm := baseline_median_eq hb
    have anti : Std.Antisymm ((· : ℚ) ≤ ·) :=
      ⟨fun h h' => le_antisymm h h'⟩
    obtain ⟨-, hmnle⟩ :=
      (List.min?_eq_some_iff (fun a => le_refl a) (fun a b => min_choice a b)
        (fun a b c => le_min_iff)).mp hmn
    obtain ⟨-, hmxle⟩ :=
      (List.max?_eq_some_iff (fun a => le_refl a) (fun a b => max_choice a b)
        (fun a b c => max_le_iff)).mp hmx
    have hne : metricValues hist config op metric ≠ [] := by
      intro h0
      rw [h0] at h2
      simp at h2
    have hmed := medianQ_between hne hmnle hmxle
    exact ⟨hnn, hbm ▸ hmed.1, hbm ▸ hmed.2⟩

theorem c9_baseline_order_invariance_witness :
    calculate_baseline scenarioHist "memory" Op.create OpMetrics.throughput =
      calculate_baseline scenarioHistPermuted "memory" Op.create
        OpMetrics.throughput ∧
    (0 ≤ (Baseline.mk (201 / 2) (35 / 12)).stddevSq ∧
      (98 : ℚ) ≤ (Baseline.mk (201 / 2) (35 / 12)).median ∧
      (Baseline.mk (201 / 2) (35 / 12)).median ≤ 102) :=
  ⟨(c9_baseline_order_invariance scenarioHist scenarioHistPermuted "memory"
      Op.create OpMetrics.throughput ⟨201 / 2, 35 / 12⟩ 98 102 (by decide)).1,
   (c9_baseline_order_invariance scenarioHist scenarioHistPermuted "memory"
      Op.create OpMetrics.throughput ⟨201 / 2, 35 / 12⟩ 98 102 (by decide)).2
     scenario_baseline (by decide) (by decide) (by decide)⟩

theorem isPrefixOf_append_self (l t : List Char) : l.isPrefixOf (l ++ t) = true := by
  induction l with
  | nil => cases t <;> rfl
  | cons a l ih => simp [List.isPrefixOf, ih]

theorem removeResultDashAux_nil (fuel : Nat) : removeResultDashAux fuel [] = [] := by
  cases fuel <;> rfl

theorem removeResultDashAux_congr (f1 : Nat) :
    ∀ (f2 : Nat) (l : List Char), l.length ≤ f1 → l.length ≤ f2 →
      removeResultDashAux f1 l = removeResultDashAux f2 l := by
  induction f1 with
  | zero =>
    intro f2 l h1 h2
    have : l = [] := List.length_eq_zero.mp (Nat.le_zero.mp h1)
    subst this
    rw [removeResultDashAux_nil, removeResultDashAux_nil]
  | succ n ih =>
    intro f2 l h1 h2
    match l, f2 with
    | [], _ => rw [removeResultDashAux_nil, removeResultDashAux_nil]
    | c :: rest, 0 => simp at h2
    | c :: rest, m + 1 =>
      have h1' : rest.length ≤ n := by simpa using h1
      have h2' : rest.length ≤ m := by simpa using h2
      rw [removeResultDashAux, removeResultDashAux]
      by_cases hp : RESULT_DASH.isPrefixOf (c :: rest)
      · rw [if_pos hp, if_pos hp]
        exact ih m (rest.drop 6) (by simp; omega) (by simp; omega)
      · rw [if_neg hp, if_neg hp, ih m rest h1' h2']

theorem removeResultDash_strip (s : List Char) :
    removeResultDash (RESULT_DASH ++ s) = removeResultDash s := by
  have hpre : RESULT_DASH.isPrefixOf
      ('r' :: (['e', 's', 'u', 'l', 't', '-'] ++ s)) = true :=
    isPrefixOf_append_self RESULT_DASH s
  have hlen : (RESULT_DASH ++ s).length = s.length + 7 := by simp [RESULT_DASH]
  unfold removeResultDash
  rw [hlen]
  show removeResultDashAux (s.length + 6 + 1)
    ('r' :: (['e', 's', 'u', 'l', 't', '-'] ++ s)) = removeResultDashAux s.length s
  rw [removeResultDashAux, if_pos hpre]
  have hdrop : (['e', 's', 'u', 'l', 't', '-'] ++ s).drop 6 = s := rfl
  rw [hdrop]
  exact removeResultDashAux_congr (s.length + 6) s.length s (by omega) (by omega)

/-- C10 counterexample: the stem of `a-result-b.json` contains
`result-` only as an interior substring, yet the extraction deletes it
(`str.replace('result-', '')` removes every occurrence), yielding `a-b`
instead of keeping the interior substring as the claim states. -/
theorem c10_interior_occurrence_counterexample :
    extract_config_name ("a-result-b.json".toList) = "a-b".toList ∧
    "a-b".toList ≠ "a-result-b".toList := by decide

/-- C10 amended: the configuration name is the file's stem with **every**
left-to-right non-overlapping occurrence of `result-` deleted, not only
a leading prefix: a leading `result-` is stripped (first conjunct, for
every suffix), `result-memory.json` yields `memory` and `memory.json`
stays `memory` as the claim's examples state, but `a-result-b.json`
yields `a-b` and `result-result-x.json` yields `x`. -/
theorem c10_extraction_amended (s : List Char) :
    removeResultDash (RESULT_DASH ++ s) = removeResultDash s ∧
    extract_config_name ("result-memory.json".toList) = "memory".toList ∧
    extract_config_name ("memory.json".toList) = "memory".toList ∧
    extract_config_name ("a-result-b.json".toList) = "a-b".toList ∧
    extract_config_name ("result-result-x.json".toList) = "x".toList :=
  ⟨removeResultDash_strip s, by decide, by decide, by decide, by decide⟩
